import Mathlib

/-!
Verification of the Funtury order-matching backend
(`predict_market_backend/main.py`, `predict_market_backend/models.py`).

The code is shallowly embedded: every endpoint becomes a pure function over
an explicit store state `DB`.  Python `float` values are modelled as the
exact rational value of the binary64 number they denote, and the Python
expression `int(price * 10**18)` is modelled by an explicit round-to-nearest
-even binary64 multiplication followed by truncation.  The SQLAlchemy
session is modelled by the lists of rows it holds; `db.begin_nested()`
wrapping the whole matching loop together with the absence of any commit
before the loop finishes means every error path leaves the committed store
unchanged, which the embedding renders by returning the original `DB` on
error.
-/

set_option maxRecDepth 40000
set_option allowUnsafeReducibility true
attribute [semireducible] Rat.mul Rat.add Rat.sub Rat.inv

namespace Funtury

/-! ### Binary64 arithmetic model

`fpRound q` is the binary64 (round-to-nearest, ties-to-even) value nearest
to the real number `q`, represented as an exact rational.  Only the normal
range matters for the program's prices, so no subnormal or overflow
handling is modelled.  Fuel-based recursions are used so that all proofs
reduce inside the kernel. -/

/-- Fuel-driven base-2 logarithm on naturals: `natLog2F fuel n` is
`⌊log₂ n⌋` for `n ≥ 1` whenever `fuel` bounds the bit length of `n`. -/
def natLog2F : Nat → Nat → Nat
  | 0, _ => 0
  | f+1, n => if n ≤ 1 then 0 else natLog2F f (n / 2) + 1

/-- `2 ^ n` as a rational, by structural recursion. -/
def pow2Q : Nat → ℚ
  | 0 => 1
  | n+1 => pow2Q n * 2

/-- Fuel-driven search for the least `k ≥ k₀` with `1 ≤ q * 2 ^ k`. -/
def expUpF : Nat → ℚ → Nat → Nat
  | 0, _, k => k
  | f+1, q, k => if 1 ≤ q * pow2Q k then k else expUpF f q (k + 1)

/-- The binade exponent of a positive rational: the `e : ℤ` with
`2 ^ e ≤ q < 2 ^ (e+1)` (within the fuel bounds used by the program's
price range). -/
def fpExp (q : ℚ) : ℤ :=
  if 1 ≤ q then (natLog2F 1100 q.floor.toNat : ℤ)
  else -(expUpF 1100 q 1 : ℤ)

/-- `2 ^ e` for an integer exponent, as a rational. -/
def qpow2 (e : ℤ) : ℚ := if 0 ≤ e then pow2Q e.toNat else 1 / pow2Q (-e).toNat

/-- Round a rational to the nearest integer, ties to even. -/
def rnEvenInt (q : ℚ) : ℤ :=
  let f := q.floor
  let r := q - f
  if r < 1/2 then f
  else if 1/2 < r then f + 1
  else if f % 2 = 0 then f else f + 1

/-- Round a positive rational to 53 significant bits (binary64 precision). -/
def fpRoundPos (q : ℚ) : ℚ :=
  let ulp : ℚ := qpow2 (fpExp q - 52)
  ulp * rnEvenInt (q / ulp)

/-- Round a rational to the nearest binary64 value (normal range). -/
def fpRound (q : ℚ) : ℚ :=
  if q < 0 then - fpRoundPos (-q) else if q = 0 then 0 else fpRoundPos q

/-- Binary64 multiplication: the exact product, rounded. -/
def fpMul (a b : ℚ) : ℚ := fpRound (a * b)

/-- Python `int(x)` on a float: truncation toward zero. -/
def pyTrunc (q : ℚ) : ℤ := if q < 0 then -((-q).floor) else q.floor

/-- `10 ** 18`, which is exactly representable in binary64. -/
def tenPow18 : ℚ := 1000000000000000000

/-- The settlement price argument `int(transaction_price * 10**18)` built at
`main.py:154`: binary64 multiplication of the (float) price by `10^18`,
truncated to an integer. -/
def pyIntE18 (p : ℚ) : ℤ := pyTrunc (fpMul p tenPow18)

/-- The binary64 value a decimal literal `n × 10⁻ᵈ` parses to (Pydantic
parses the JSON decimal price into a Python float this way). -/
def pyFloatOfDecimal (n : ℤ) (d : Nat) : ℚ := fpRound ((n : ℚ) / (10 : ℚ) ^ d)

/-! ### Data model (`models.py`) -/

/-- `OrderStatus` from `models.py`. -/
inductive OrderStatus where
  | OPEN
  | PARTIALLY_DEALT
  | DEALT
  | CANCELLED
deriving DecidableEq, Repr

/-- A row of the `orders` table (`models.py`, class `Order`).  `price` is the
exact rational value of the stored float; timestamps are abstract ticks. -/
structure Order where
  id : Nat
  order_serial : Nat
  user_address : String
  market_address : String
  outcome : String
  price : ℚ
  amount : ℤ
  side : String
  market_state : String
  created_at : Nat
deriving DecidableEq, Repr

/-- A row of the `transactions` table (`models.py`, class `Transaction`). -/
structure Transaction where
  id : Nat
  order_serial : Nat
  user_address : String
  market_address : String
  outcome : String
  side : String
  deal_amount : ℤ
  remaining_amount : ℤ
  price : ℚ
  status : OrderStatus
  created_at : Nat
  dealt_at : Option Nat
deriving DecidableEq, Repr

/-- The persistent store: the two tables, in insertion order. -/
structure DB where
  orders : List Order
  transactions : List Transaction
deriving DecidableEq, Repr

/-- `db.query(Transaction).filter(Transaction.order_serial == s).first()`. -/
def findTx (ts : List Transaction) (s : Nat) : Option Transaction :=
  ts.find? (fun t => t.order_serial == s)

/-- Mutating the first row satisfying `p` (a fetched ORM object is a live
row: assigning to its attributes updates that row in place). -/
def updateFirst (p : α → Bool) (f : α → α) : List α → List α
  | [] => []
  | x :: xs => if p x then f x :: xs else x :: updateFirst p f xs

/-- Assigning `amount := a` on the order object with identity `i`. -/
def setAmount (i : Nat) (a : ℤ) (os : List Order) : List Order :=
  os.map (fun o => if o.id == i then { o with amount := a } else o)

/-- `db.delete(order)`: the row with identity `i` disappears. -/
def removeOrder (i : Nat) (os : List Order) : List Order :=
  os.filter (fun o => o.id != i)

/-! ### Matching query (`match_order`, `main.py:324-345`) -/

/-- Ascending price comparison used for the BUY branch's `ORDER BY price ASC`. -/
def priceLE (a b : Order) : Prop := a.price ≤ b.price

/-- Descending price comparison used for the SELL branch's `ORDER BY price DESC`. -/
def priceGE (a b : Order) : Prop := b.price ≤ a.price

instance : DecidableRel priceLE := fun a b => inferInstanceAs (Decidable (a.price ≤ b.price))

instance : DecidableRel priceGE := fun a b => inferInstanceAs (Decidable (b.price ≤ a.price))

instance : IsTotal Order priceLE := ⟨fun a b => le_total a.price b.price⟩

instance : IsTrans Order priceLE := ⟨fun _ _ _ h₁ h₂ => le_trans h₁ h₂⟩

instance : IsTotal Order priceGE := ⟨fun a b => le_total b.price a.price⟩

instance : IsTrans Order priceGE := ⟨fun _ _ _ h₁ h₂ => le_trans h₂ h₁⟩

/-- Python's `str.lower()` on the model's strings (structural recursion so
that proofs reduce in the kernel). -/
def lowerStr (s : String) : String := String.mk (s.data.map Char.toLower)

/-- The eligibility filter of the matching query: same market and outcome,
the opposite side, positive resting amount, market snapshot `Active`. -/
def eligible (new_order : Order) (opposite : String) (o : Order) : Bool :=
  o.market_address == new_order.market_address &&
  o.outcome == new_order.outcome &&
  o.side == opposite &&
  decide (0 < o.amount) &&
  o.market_state == "Active"

/-- `match_order` (`main.py:324-345`): empty for a non-positive incoming
amount; otherwise the eligible opposite-side orders within the price bound,
sorted ascending (incoming buy) or descending (incoming sell) by price. -/
def match_order (db : DB) (new_order : Order) : List Order :=
  if new_order.amount ≤ 0 then []
  else
    let opposite := if new_order.side == "buy" then "sell" else "buy"
    let elig := db.orders.filter (eligible new_order opposite)
    if new_order.side == "buy" then
      List.insertionSort priceLE (elig.filter (fun o => decide (o.price ≤ new_order.price)))
    else
      List.insertionSort priceGE (elig.filter (fun o => decide (new_order.price ≤ o.price)))

/-! ### Settlement adapter and API boundary (`main.py:45-77, 147-168`) -/

/-- Outcome of one `transferShares` attempt: mined with status 1, mined with
status 0 (revert, `main.py:166`), or an exception thrown by the adapter
(`ContractLogicError` or any other, `main.py:201-206`). -/
inductive SettleResult where
  | ok
  | reverted
  | errorThrown
deriving DecidableEq, Repr

/-- The arguments the backend passes to
`market_contract.functions.transferShares(...)` (`main.py:150-155`). -/
structure SettleCall where
  seller : String
  buyer : String
  is_yes : Bool
  price_fixed : ℤ
  quantity : ℤ
deriving DecidableEq, Repr

/-- An error surfaced by an endpoint: `client c d` is
`HTTPException(status_code=c, detail=d)`; `server d` is an uncaught Python
exception, which FastAPI turns into a 500 response. -/
inductive ApiError where
  | client (code : Nat) (detail : String)
  | server (detail : String)
deriving DecidableEq, Repr

/-- Whether an error reaches the caller as a client error (an
`HTTPException` raised by the handler, carrying a 4xx status). -/
def ApiError.isClient : ApiError → Prop
  | .client _ _ => True
  | .server _ => False

instance : DecidablePred ApiError.isClient := fun e => by
  cases e with
  | client c d => exact .isTrue trivial
  | server d => exact .isFalse (fun h => h)

/-- The `OrderResponse` Pydantic model (`main.py:53-63`). -/
structure OrderResponse where
  id : Nat
  order_serial : Nat
  user_address : String
  market_address : String
  outcome : String
  price : ℚ
  amount : ℤ
  side : String
  market_state : String
  created_at : Nat
deriving DecidableEq, Repr

/-- The `OrderCreate` request body (`main.py:45-51`).  `price` carries the
binary64 value the JSON decimal parsed to. -/
structure OrderCreate where
  user_address : String
  market_address : String
  outcome : String
  price : ℚ
  amount : ℤ
  side : String
deriving DecidableEq, Repr

/-! ### The matching loop (`create_order`, `main.py:128-206`) -/

/-- The fill update applied to a transaction row on a successful settlement
(`main.py:171-175` for the incoming row, `main.py:179-183` for the matched
row): add the matched amount to `deal_amount`, subtract it from
`remaining_amount`, record the fill price, recompute `status` from the new
`remaining_amount`, and stamp `dealt_at` when the new status is `DEALT`. -/
def fillT (m : ℤ) (p : ℚ) (now : Nat) (t : Transaction) : Transaction :=
  let t1 := { t with
    deal_amount := t.deal_amount + m
    remaining_amount := t.remaining_amount - m
    price := p }
  let st := if 0 < t1.remaining_amount then OrderStatus.PARTIALLY_DEALT else OrderStatus.DEALT
  { t1 with
    status := st
    dealt_at := if st = OrderStatus.DEALT then some now else t1.dealt_at }

/-- The `transferShares` argument tuple for one allocation
(`main.py:150-155`): seller and buyer chosen by the incoming side, the
outcome flag from the request, the fixed-point price of the *matched*
order, and the matched amount. -/
def mkSettleCall (inc : Order) (c : Order) (m : ℤ) : SettleCall :=
  { seller := if inc.side == "sell" then inc.user_address else c.user_address
    buyer := if inc.side == "buy" then inc.user_address else c.user_address
    is_yes := lowerStr inc.outcome == "yes"
    price_fixed := pyIntE18 c.price
    quantity := m }

/-- State of the matching loop: the session's live rows, the incoming
order's unfilled amount (`remaining_amount` local, `main.py:131`), and the
settlement calls issued so far. -/
structure LoopState where
  orders : List Order
  transactions : List Transaction
  remaining : ℤ
  calls : List SettleCall
deriving DecidableEq, Repr

/-- The local mutations of one successful allocation (`main.py:170-199`):
fill-update both transaction rows, decrement both orders' amounts, and
delete any order whose amount reached zero. -/
def applyFillUpdates (inc : Order) (now : Nat) (c : Order) (m : ℤ) (s : LoopState) :
    LoopState :=
  let ts1 := updateFirst (fun t => t.order_serial == inc.order_serial) (fillT m c.price now)
    s.transactions
  let ts2 := updateFirst (fun t => t.order_serial == c.order_serial) (fillT m c.price now) ts1
  let rem := s.remaining - m
  let os1 := setAmount c.id (c.amount - m) s.orders
  let os2 := setAmount inc.id rem os1
  let os3 := if c.amount - m = 0 then removeOrder c.id os2 else os2
  let os4 := if rem = 0 then removeOrder inc.id os3 else os3
  { orders := os4, transactions := ts2, remaining := rem, calls := s.calls }

/-- The matching loop body (`main.py:132-206`).  Candidates are consumed in
the order `match_order` returned them; the loop stops early when the
incoming order is fully filled.  A missing matched transaction, a reverted
receipt or a thrown settlement exception each raise an `HTTPException`,
which aborts the loop with an error. -/
def runMatching (settle : Nat → SettleResult) (inc : Order) (now : Nat) :
    List Order → LoopState → LoopState × Option ApiError
  | [], s => (s, none)
  | c :: rest, s =>
    if s.remaining = 0 then (s, none)
    else
      match findTx s.transactions c.order_serial with
      | none => (s, some (.client 400 "Matched transaction not found"))
      | some _ =>
        let m := min s.remaining c.amount
        let s1 := { s with calls := s.calls ++ [mkSettleCall inc c m] }
        match settle s.calls.length with
        | .ok => runMatching settle inc now rest (applyFillUpdates inc now c m s1)
        | .reverted =>
          (s1, some (.client 400 "Transfer shares failed: Transaction reverted"))
        | .errorThrown => (s1, some (.client 400 "Transfer shares failed"))

/-- The incoming `Order` row built at `main.py:101-111`. -/
def newOrderOf (req : OrderCreate) (serial oid now : Nat) (mstate : String) : Order :=
  { id := oid, order_serial := serial, user_address := req.user_address,
    market_address := req.market_address, outcome := req.outcome, price := req.price,
    amount := req.amount, side := req.side, market_state := mstate, created_at := now }

/-- The incoming `Transaction` row built at `main.py:114-124`:
`deal_amount = 0`, `remaining_amount = amount`, default status `OPEN`,
`dealt_at` unset. -/
def newTxOf (req : OrderCreate) (serial tid now : Nat) : Transaction :=
  { id := tid, order_serial := serial, user_address := req.user_address,
    market_address := req.market_address, outcome := req.outcome, side := req.side,
    deal_amount := 0, remaining_amount := req.amount, price := req.price,
    status := OrderStatus.OPEN, created_at := now, dealt_at := none }

/-- The session contents after the two `db.add` calls (`main.py:112,125`). -/
def db1Of (db : DB) (req : OrderCreate) (serial oid tid now : Nat) (mstate : String) : DB :=
  { orders := db.orders ++ [newOrderOf req serial oid now mstate],
    transactions := db.transactions ++ [newTxOf req serial tid now] }

deriving instance DecidableEq for Except

/-- What a `create_order` request produced: the HTTP-level outcome, the
store as durably committed when the handler returned (errors commit
nothing: the savepoint of `db.begin_nested()` is rolled back and the outer
transaction is discarded), and the settlement calls that were issued. -/
structure CreateResult where
  resp : Except ApiError OrderResponse
  db : DB
  calls : List SettleCall
deriving DecidableEq, Repr

/-- The `OrderResponse` built from the incoming order (`main.py:219-244`),
with the amount the handler reports. -/
def respOf (o : Order) (amt : ℤ) : OrderResponse :=
  { id := o.id, order_serial := o.order_serial, user_address := o.user_address,
    market_address := o.market_address, outcome := o.outcome, price := o.price,
    amount := amt, side := o.side, market_state := o.market_state,
    created_at := o.created_at }

/-- `create_order` (`main.py:88-244`).  `oracle` is the
`getMarketState()` call's result (`Except.error` = the remote call threw,
which propagates uncaught); `settle` gives the outcome of the n-th
settlement attempt; `serial`, `oid`, `tid` are the fresh serial and row
identities; `now` the clock tick. -/
def create_order (db : DB) (oracle : Except String String) (settle : Nat → SettleResult)
    (req : OrderCreate) (serial oid tid now : Nat) : CreateResult :=
  match oracle with
  | .error e => ⟨.error (.server e), db, []⟩
  | .ok mstate =>
    if mstate ≠ "Active" then ⟨.error (.client 400 "Market not in active phase"), db, []⟩
    else
      let inc := newOrderOf req serial oid now mstate
      let db1 := db1Of db req serial oid tid now mstate
      let cands := match_order db1 inc
      let s0 : LoopState := ⟨db1.orders, db1.transactions, inc.amount, []⟩
      match runMatching settle inc now cands s0 with
      | (s, some e) => ⟨.error e, db, s.calls⟩
      | (s, none) =>
        if 0 < s.remaining then
          ⟨.ok (respOf inc s.remaining), ⟨setAmount oid s.remaining s.orders, s.transactions⟩,
            s.calls⟩
        else
          ⟨.ok (respOf inc 0), ⟨removeOrder oid s.orders, s.transactions⟩, s.calls⟩

/-! ### Cancellation (`cancel_order`, `main.py:247-276`) -/

/-- `cancel_order` (`main.py:247-276`).  Note the order of operations in the
source: `db_order.order_serial` is dereferenced at `main.py:250` *before*
the `if not db_order` guard at `main.py:251`, so a missing order raises an
uncaught `AttributeError` (a server error), never the 404. -/
def cancel_order (db : DB) (oracle : Except String String) (order_id : Nat) :
    Except ApiError OrderResponse × DB :=
  match db.orders.find? (fun o => o.id == order_id) with
  | none => (.error (.server "AttributeError: NoneType has no attribute order_serial"), db)
  | some o =>
    match findTx db.transactions o.order_serial with
    | none => (.error (.client 404 "Order not found"), db)
    | some t =>
      if t.status ≠ OrderStatus.OPEN ∧ t.status ≠ OrderStatus.PARTIALLY_DEALT then
        (.error (.client 400 "Order cannot be cancelled"), db)
      else
        match oracle with
        | .error e => (.error (.server e), db)
        | .ok mstate =>
          if mstate ≠ "Active" then (.error (.client 400 "Market not in active phase"), db)
          else
            let ts := updateFirst (fun u => u.order_serial == o.order_serial)
              (fun u => { u with status := OrderStatus.CANCELLED }) db.transactions
            (.ok (respOf o o.amount), ⟨removeOrder order_id db.orders, ts⟩)

/-! ### The spec's deterministic status mapping (§3 of the spec) -/

/-- Modelled from the spec: "status is a deterministic function of
remaining_amount: remaining_amount == original ⇒ OPEN; 0 < remaining_amount
< original ⇒ PARTIALLY_DEALT; remaining_amount == 0 ⇒ DEALT".  Used only to
compare the code's status updates against the specified mapping. -/
def specStatus (orig r : ℤ) : OrderStatus :=
  if r = orig then OrderStatus.OPEN
  else if r = 0 then OrderStatus.DEALT
  else OrderStatus.PARTIALLY_DEALT

/-- How a transaction row may evolve during one matching pass whose
candidate list is `cands`: identity and serial are stable, the
deal/remaining sum is conserved, and the price field is either untouched or
set to some candidate's resting price. -/
def TxEvolve (cands : List Order) (t t' : Transaction) : Prop :=
  t'.id = t.id ∧
  t'.order_serial = t.order_serial ∧
  t'.deal_amount + t'.remaining_amount = t.deal_amount + t.remaining_amount ∧
  (t' = t ∨ ∃ c ∈ cands, t'.price = c.price)

/-! ### Concrete fixtures used by the counterexamples and witnesses -/

/-- A resting SELL of 5 shares at price 0.5 (exactly representable). -/
def sellA : Order :=
  { id := 1, order_serial := 101, user_address := "alice", market_address := "mkt",
    outcome := "yes", price := 1/2, amount := 5, side := "sell", market_state := "Active",
    created_at := 0 }

/-- The transaction row of `sellA`, untouched since creation. -/
def txA : Transaction :=
  { id := 1, order_serial := 101, user_address := "alice", market_address := "mkt",
    outcome := "yes", side := "sell", deal_amount := 0, remaining_amount := 5, price := 1/2,
    status := OrderStatus.OPEN, created_at := 0, dealt_at := none }

/-- A second resting SELL of 5 shares at price 0.75. -/
def sellB : Order :=
  { id := 2, order_serial := 102, user_address := "carol", market_address := "mkt",
    outcome := "yes", price := 3/4, amount := 5, side := "sell", market_state := "Active",
    created_at := 1 }

/-- The transaction row of `sellB`. -/
def txB : Transaction :=
  { id := 2, order_serial := 102, user_address := "carol", market_address := "mkt",
    outcome := "yes", side := "sell", deal_amount := 0, remaining_amount := 5, price := 3/4,
    status := OrderStatus.OPEN, created_at := 1, dealt_at := none }

/-- A store with the single resting sell `sellA`. -/
def oneSellDb : DB := ⟨[sellA], [txA]⟩

/-- A store with two resting sells at 0.5 and 0.75. -/
def twoSellDb : DB := ⟨[sellA, sellB], [txA, txB]⟩

/-- An incoming BUY for 8 shares limited at 0.75: crosses both sells. -/
def buyReq8 : OrderCreate :=
  { user_address := "bob", market_address := "mkt", outcome := "yes", price := 3/4,
    amount := 8, side := "buy" }

/-- An incoming BUY for 3 shares limited at 0.75. -/
def buyReq3 : OrderCreate :=
  { user_address := "bob", market_address := "mkt", outcome := "yes", price := 3/4,
    amount := 3, side := "buy" }

/-- An incoming BUY with amount 0 (the endpoint performs no validation on
`amount`, so such a request reaches `match_order`). -/
def buyReq0 : OrderCreate :=
  { user_address := "bob", market_address := "mkt", outcome := "yes", price := 3/4,
    amount := 0, side := "buy" }

/-- Settlement oracle: first attempt mined, second reverted. -/
def settleOkThenRevert : Nat → SettleResult := fun n => if n = 0 then .ok else .reverted

/-- Settlement oracle: every attempt mined. -/
def settleAllOk : Nat → SettleResult := fun _ => .ok

/-- A resting SELL of 4 shares priced at the binary64 value of the decimal
0.55 — the value a client-submitted price of 0.55 is stored as. -/
def sellFp : Order :=
  { id := 3, order_serial := 103, user_address := "dave", market_address := "mkt",
    outcome := "yes", price := pyFloatOfDecimal 55 2, amount := 4, side := "sell",
    market_state := "Active", created_at := 0 }

/-- The transaction row of `sellFp`. -/
def txFp : Transaction :=
  { id := 3, order_serial := 103, user_address := "dave", market_address := "mkt",
    outcome := "yes", side := "sell", deal_amount := 0, remaining_amount := 4,
    price := pyFloatOfDecimal 55 2, status := OrderStatus.OPEN, created_at := 0,
    dealt_at := none }

/-- A store holding only `sellFp`. -/
def fpDb : DB := ⟨[sellFp], [txFp]⟩

/-- An incoming BUY for 4 shares limited at the binary64 value of 0.6. -/
def buyReqFp : OrderCreate :=
  { user_address := "bob", market_address := "mkt", outcome := "yes",
    price := pyFloatOfDecimal 6 1, amount := 4, side := "buy" }

/-! ### List utilities -/

theorem updateFirst_rel {α : Type} (p : α → Bool) (f : α → α) :
    ∀ l : List α, List.Forall₂ (fun x y => y = x ∨ y = f x) l (updateFirst p f l) := by
  intro l
  induction l with
  | nil => exact List.Forall₂.nil
  | cons x xs ih =>
    by_cases h : p x
    · rw [updateFirst, if_pos h]
      exact List.Forall₂.cons (Or.inr rfl) (List.forall₂_same.2 (fun a _ => Or.inl rfl))
    · rw [updateFirst, if_neg h]
      exact List.Forall₂.cons (Or.inl rfl) ih

theorem forall₂_compose {α : Type} {R S T : α → α → Prop}
    (h : ∀ a b c, R a b → S b c → T a c) :
    ∀ {l₁ l₂ l₃ : List α}, List.Forall₂ R l₁ l₂ → List.Forall₂ S l₂ l₃ →
      List.Forall₂ T l₁ l₃ := by
  intro l₁ l₂ l₃ h₁
  induction h₁ generalizing l₃ with
  | nil => intro h₂; cases h₂; exact List.Forall₂.nil
  | @cons a b la lb hab _ ih =>
    intro h₂
    cases h₂ with
    | cons hbc htl => exact List.Forall₂.cons (h _ _ _ hab hbc) (ih htl)

theorem forall₂_mem_right {α β : Type} {R : α → β → Prop} :
    ∀ {l₁ : List α} {l₂ : List β}, List.Forall₂ R l₁ l₂ → ∀ y ∈ l₂, ∃ x ∈ l₁, R x y := by
  intro l₁ l₂ h
  induction h with
  | nil => intro y hy; cases hy
  | @cons a b la lb hab _ ih =>
    intro y hy
    rcases List.mem_cons.1 hy with rfl | hy
    · exact ⟨a, List.mem_cons_self a la, hab⟩
    · rcases ih y hy with ⟨x, hx, hr⟩
      exact ⟨x, List.mem_cons_of_mem a hx, hr⟩

theorem updateFirst_split {α : Type} (p : α → Bool) (f : α → α) :
    ∀ (l : List α) (x : α), l.find? p = some x →
      ∃ l₁ l₂, l = l₁ ++ x :: l₂ ∧ (∀ y ∈ l₁, p y = false) ∧
        updateFirst p f l = l₁ ++ f x :: l₂ := by
  intro l
  induction l with
  | nil => intro x hx; simp at hx
  | cons a l ih =>
    intro x hx
    by_cases h : p a
    · rw [List.find?_cons_of_pos _ h] at hx
      cases hx
      exact ⟨[], l, rfl, by simp, by rw [updateFirst, if_pos h]; rfl⟩
    · rw [List.find?_cons_of_neg _ h] at hx
      rcases ih x hx with ⟨l₁, l₂, rfl, hl₁, hu⟩
      refine ⟨a :: l₁, l₂, rfl, ?_, ?_⟩
      · intro y hy
        rcases List.mem_cons.1 hy with rfl | hy
        · exact Bool.of_not_eq_true h
        · exact hl₁ y hy
      · rw [updateFirst, if_neg h, hu]; rfl

/-! ### Properties of the matching query -/

theorem match_order_mem (db : DB) (o : Order) :
    ∀ c ∈ match_order db o, c ∈ db.orders ∧ 0 < c.amount ∧
      c.market_address = o.market_address ∧ c.outcome = o.outcome ∧
      c.market_state = "Active" ∧
      c.side = (if o.side = "buy" then "sell" else "buy") ∧
      (o.side = "buy" → c.price ≤ o.price) ∧ (o.side ≠ "buy" → o.price ≤ c.price) := by
  intro c hc
  rw [match_order] at hc
  by_cases ha : o.amount ≤ 0
  · rw [if_pos ha] at hc; cases hc
  · rw [if_neg ha] at hc
    by_cases hs : o.side == "buy"
    · rw [if_pos hs] at hc
      simp only [List.Perm.mem_iff (List.perm_insertionSort _ _), List.mem_filter,
        eligible, Bool.and_eq_true, beq_iff_eq, decide_eq_true_eq, and_assoc] at hc
      obtain ⟨hmem, hmkt, hout, hside, hamt, hstate, hprice⟩ := hc
      have hb : o.side = "buy" := by simpa using hs
      exact ⟨hmem, hamt, hmkt, hout, hstate, by simp [hb, hside], fun _ => hprice,
        fun h => absurd hb h⟩
    · rw [if_neg hs] at hc
      simp only [List.Perm.mem_iff (List.perm_insertionSort _ _), List.mem_filter,
        eligible, Bool.and_eq_true, beq_iff_eq, decide_eq_true_eq, and_assoc] at hc
      obtain ⟨hmem, hmkt, hout, hside, hamt, hstate, hprice⟩ := hc
      have hb : o.side ≠ "buy" := by simpa using hs
      exact ⟨hmem, hamt, hmkt, hout, hstate, by simp [hb, hside], fun h => absurd h hb,
        fun _ => hprice⟩

theorem match_order_of_nonpos (db : DB) (o : Order) (h : o.amount ≤ 0) :
    match_order db o = [] := by
  rw [match_order, if_pos h]

/-! ### Properties of the matching loop -/

theorem runMatching_err_client (settle : Nat → SettleResult) (inc : Order) (now : Nat) :
    ∀ (cands : List Order) (s : LoopState) (e : ApiError),
      (runMatching settle inc now cands s).2 = some e → e.isClient := by
  intro cands
  induction cands with
  | nil => intro s e he; simp [runMatching] at he
  | cons c rest ih =>
    intro s e he
    rw [runMatching] at he
    by_cases hr : s.remaining = 0
    · rw [if_pos hr] at he; cases he
    · rw [if_neg hr] at he
      rcases hft : findTx s.transactions c.order_serial with _ | mt
      · rw [hft] at he; cases he; trivial
      · rw [hft] at he
        rcases hst : settle s.calls.length with _ | _ | _ <;> rw [hst] at he
        · exact ih _ e he
        · cases he; trivial
        · cases he; trivial

theorem runMatching_calls (settle : Nat → SettleResult) (inc : Order) (now : Nat) :
    ∀ (cands : List Order) (s : LoopState),
      0 ≤ s.remaining → (∀ c ∈ cands, 0 < c.amount) →
      ∀ call ∈ (runMatching settle inc now cands s).1.calls,
        call ∈ s.calls ∨
        ∃ c ∈ cands, ∃ m : ℤ, 0 < m ∧ m ≤ c.amount ∧ call = mkSettleCall inc c m := by
  intro cands
  induction cands with
  | nil => intro s _ _ call hc; rw [runMatching] at hc; exact Or.inl hc
  | cons c rest ih =>
    intro s hrem hpos call hc
    rw [runMatching] at hc
    by_cases hr : s.remaining = 0
    · rw [if_pos hr] at hc; exact Or.inl hc
    · rw [if_neg hr] at hc
      have hrpos : 0 < s.remaining := lt_of_le_of_ne hrem (Ne.symm hr)
      have hcamt : 0 < c.amount := hpos c (List.mem_cons_self c rest)
      have hmpos : 0 < min s.remaining c.amount := lt_min hrpos hcamt
      have hmle : min s.remaining c.amount ≤ c.amount := min_le_right _ _
      rcases hft : findTx s.transactions c.order_serial with _ | mt
      · rw [hft] at hc; exact Or.inl hc
      · rw [hft] at hc
        rcases hst : settle s.calls.length with _ | _ | _ <;> rw [hst] at hc
        · have := ih (applyFillUpdates inc now c (min s.remaining c.amount)
            { s with calls := s.calls ++ [mkSettleCall inc c (min s.remaining c.amount)] })
            (by
              simp only [applyFillUpdates]
              exact sub_nonneg.2 (min_le_left _ _))
            (fun x hx => hpos x (List.mem_cons_of_mem c hx)) call hc
          rcases this with hmem | ⟨c', hc', m, hm⟩
          · simp only [applyFillUpdates, List.mem_append, List.mem_singleton] at hmem
            rcases hmem with hmem | rfl
            · exact Or.inl hmem
            · exact Or.inr ⟨c, List.mem_cons_self c rest, _, hmpos, hmle, rfl⟩
          · exact Or.inr ⟨c', List.mem_cons_of_mem c hc', m, hm⟩
        · simp only [List.mem_append, List.mem_singleton] at hc
          rcases hc with hmem | rfl
          · exact Or.inl hmem
          · exact Or.inr ⟨c, List.mem_cons_self c rest, _, hmpos, hmle, rfl⟩
        · simp only [List.mem_append, List.mem_singleton] at hc
          rcases hc with hmem | rfl
          · exact Or.inl hmem
          · exact Or.inr ⟨c, List.mem_cons_self c rest, _, hmpos, hmle, rfl⟩

theorem fillT_id (m : ℤ) (p : ℚ) (now : Nat) (t : Transaction) :
    (fillT m p now t).id = t.id := by
  simp [fillT]

theorem fillT_serial (m : ℤ) (p : ℚ) (now : Nat) (t : Transaction) :
    (fillT m p now t).order_serial = t.order_serial := by
  simp [fillT]

theorem fillT_sum (m : ℤ) (p : ℚ) (now : Nat) (t : Transaction) :
    (fillT m p now t).deal_amount + (fillT m p now t).remaining_amount
      = t.deal_amount + t.remaining_amount := by
  simp [fillT]

theorem fillT_price (m : ℤ) (p : ℚ) (now : Nat) (t : Transaction) :
    (fillT m p now t).price = p := by
  simp [fillT]

theorem mem_setAmount {o' : Order} {i : Nat} {a : ℤ} {os : List Order} :
    o' ∈ setAmount i a os ↔
      ∃ o ∈ os, o' = if o.id = i then { o with amount := a } else o := by
  simp only [setAmount, List.mem_map, beq_iff_eq]
  constructor
  · rintro ⟨o, ho, rfl⟩; exact ⟨o, ho, rfl⟩
  · rintro ⟨o, ho, rfl⟩; exact ⟨o, ho, rfl⟩

theorem mem_removeOrder {o' : Order} {i : Nat} {os : List Order} :
    o' ∈ removeOrder i os ↔ o' ∈ os ∧ o'.id ≠ i := by
  simp [removeOrder, List.mem_filter]

theorem runMatching_txs (settle : Nat → SettleResult) (inc : Order) (now : Nat) :
    ∀ (cands : List Order) (s : LoopState),
      List.Forall₂ (TxEvolve cands) s.transactions
        (runMatching settle inc now cands s).1.transactions := by
  intro cands
  have hrefl : ∀ (cs : List Order) (ts : List Transaction),
      List.Forall₂ (TxEvolve cs) ts ts :=
    fun cs ts => List.forall₂_same.2 (fun t _ => ⟨rfl, rfl, rfl, Or.inl rfl⟩)
  induction cands with
  | nil => intro s; rw [runMatching]; exact hrefl [] s.transactions
  | cons c rest ih =>
    intro s
    rw [runMatching]
    by_cases hr : s.remaining = 0
    · rw [if_pos hr]; exact hrefl _ _
    · rw [if_neg hr]
      rcases hft : findTx s.transactions c.order_serial with _ | mt
      · exact hrefl _ _
      · rcases hst : settle s.calls.length with _ | _ | _
        · set m := min s.remaining c.amount with hm
          set s1 : LoopState := { s with calls := s.calls ++ [mkSettleCall inc c m] }
          have hstep : List.Forall₂
              (fun x y => y.id = x.id ∧ y.order_serial = x.order_serial ∧
                y.deal_amount + y.remaining_amount = x.deal_amount + x.remaining_amount ∧
                (y = x ∨ y.price = c.price))
              s.transactions (applyFillUpdates inc now c m s1).transactions := by
            have h1 := updateFirst_rel (fun t => t.order_serial == inc.order_serial)
              (fillT m c.price now) s.transactions
            have h2 := updateFirst_rel (fun t => t.order_serial == c.order_serial)
              (fillT m c.price now)
              (updateFirst (fun t => t.order_serial == inc.order_serial)
                (fillT m c.price now) s.transactions)
            have hcomp := forall₂_compose (R := fun x y => y = x ∨ y = fillT m c.price now x)
              (S := fun x y => y = x ∨ y = fillT m c.price now x)
              (T := fun x y => y.id = x.id ∧ y.order_serial = x.order_serial ∧
                y.deal_amount + y.remaining_amount = x.deal_amount + x.remaining_amount ∧
                (y = x ∨ y.price = c.price))
              (fun a b d hab hbd => by
                rcases hab with rfl | rfl <;> rcases hbd with rfl | rfl
                · exact ⟨rfl, rfl, rfl, Or.inl rfl⟩
                · exact ⟨fillT_id .., fillT_serial .., fillT_sum .., Or.inr (fillT_price ..)⟩
                · exact ⟨fillT_id .., fillT_serial .., fillT_sum .., Or.inr (fillT_price ..)⟩
                · refine ⟨?_, ?_, ?_, Or.inr (fillT_price ..)⟩
                  · rw [fillT_id, fillT_id]
                  · rw [fillT_serial, fillT_serial]
                  · rw [fillT_sum, fillT_sum]) h1 h2
            exact hcomp
          have htail := ih (applyFillUpdates inc now c m s1)
          refine forall₂_compose (fun a b d hab hbd => ?_) hstep htail
          obtain ⟨hid, hser, hsum, hpr⟩ := hab
          obtain ⟨hid', hser', hsum', hpr'⟩ := hbd
          refine ⟨hid'.trans hid, hser'.trans hser, hsum'.trans hsum, ?_⟩
          rcases hpr' with rfl | ⟨c', hc', hp'⟩
          · rcases hpr with rfl | hp
            · exact Or.inl rfl
            · exact Or.inr ⟨c, List.mem_cons_self c rest, hp⟩
          · exact Or.inr ⟨c', List.mem_cons_of_mem c hc', hp'⟩
        · exact hrefl _ _
        · exact hrefl _ _

theorem runMatching_orders (settle : Nat → SettleResult) (inc : Order) (now : Nat) :
    ∀ (cands : List Order) (s : LoopState),
      (∀ c ∈ cands, c.id ≠ inc.id) →
      0 ≤ s.remaining →
      (∀ o ∈ s.orders, o.id ≠ inc.id → 0 < o.amount) →
      (∀ o ∈ s.orders, o.id = inc.id → o.amount = s.remaining) →
      0 ≤ (runMatching settle inc now cands s).1.remaining ∧
      (∀ o ∈ (runMatching settle inc now cands s).1.orders,
        o.id ≠ inc.id → 0 < o.amount) ∧
      (∀ o ∈ (runMatching settle inc now cands s).1.orders,
        o.id = inc.id → o.amount = (runMatching settle inc now cands s).1.remaining) := by
  intro cands
  induction cands with
  | nil => intro s _ hrem hpos hinc; rw [runMatching]; exact ⟨hrem, hpos, hinc⟩
  | cons c rest ih =>
    intro s hni hrem hpos hinc
    rw [runMatching]
    by_cases hr : s.remaining = 0
    · rw [if_pos hr]; exact ⟨hrem, hpos, hinc⟩
    · rw [if_neg hr]
      rcases hft : findTx s.transactions c.order_serial with _ | mt
      · exact ⟨hrem, hpos, hinc⟩
      · rcases hst : settle s.calls.length with _ | _ | _
        · set m := min s.remaining c.amount with hm
          set s1 : LoopState := { s with calls := s.calls ++ [mkSettleCall inc c m] }
          have hcne : c.id ≠ inc.id := hni c (List.mem_cons_self c rest)
          have hmlec : m ≤ c.amount := min_le_right _ _
          have hmler : m ≤ s.remaining := min_le_left _ _
          have hs' : (applyFillUpdates inc now c m s1).remaining = s.remaining - m := rfl
          refine ih (applyFillUpdates inc now c m s1)
            (fun x hx => hni x (List.mem_cons_of_mem c hx)) ?_ ?_ ?_
          · rw [hs']; omega
          · intro o ho hone
            simp only [applyFillUpdates] at ho
            have ho3 : o ∈ (if c.amount - m = 0
                then removeOrder c.id (setAmount inc.id (s.remaining - m)
                  (setAmount c.id (c.amount - m) s.orders))
                else setAmount inc.id (s.remaining - m)
                  (setAmount c.id (c.amount - m) s.orders)) := by
              by_cases hrm : s.remaining - m = 0
              · rw [if_pos hrm] at ho; exact (mem_removeOrder.1 ho).1
              · rw [if_neg hrm] at ho; exact ho
            have hoc : o ∈ setAmount inc.id (s.remaining - m)
                (setAmount c.id (c.amount - m) s.orders) ∧
                (c.amount - m = 0 → o.id ≠ c.id) := by
              by_cases hcm : c.amount - m = 0
              · rw [if_pos hcm] at ho3
                exact ⟨(mem_removeOrder.1 ho3).1, fun _ => (mem_removeOrder.1 ho3).2⟩
              · rw [if_neg hcm] at ho3; exact ⟨ho3, fun h => absurd h hcm⟩
            obtain ⟨ho2, hzc⟩ := hoc
            rcases mem_setAmount.1 ho2 with ⟨o1, ho1, rfl⟩
            by_cases h1i : o1.id = inc.id
            · rw [if_pos h1i] at hone ⊢
              exact absurd h1i (by simpa using hone)
            · rw [if_neg h1i] at hzc ⊢
              rcases mem_setAmount.1 ho1 with ⟨o0, ho0, rfl⟩
              by_cases h0c : o0.id = c.id
              · rw [if_pos h0c] at hzc ⊢
                have hne : c.amount - m ≠ 0 := by
                  intro hz
                  exact (hzc hz) (by simpa using h0c)
                have hgt : 0 < c.amount - m := by omega
                simpa using hgt
              · rw [if_neg h0c] at h1i ⊢
                exact hpos o0 ho0 h1i
          · intro o ho hoi
            simp only [applyFillUpdates] at ho ⊢
            by_cases hrm : s.remaining - m = 0
            · rw [if_pos hrm] at ho
              exact absurd hoi (mem_removeOrder.1 ho).2
            · rw [if_neg hrm] at ho
              have ho2 : o ∈ setAmount inc.id (s.remaining - m)
                  (setAmount c.id (c.amount - m) s.orders) := by
                by_cases hcm : c.amount - m = 0
                · rw [if_pos hcm] at ho; exact (mem_removeOrder.1 ho).1
                · rw [if_neg hcm] at ho; exact ho
              rcases mem_setAmount.1 ho2 with ⟨o1, ho1, rfl⟩
              by_cases h1i : o1.id = inc.id
              · rw [if_pos h1i]
              · rw [if_neg h1i] at hoi
                exact absurd hoi h1i
        · exact ⟨hrem, hpos, hinc⟩
        · exact ⟨hrem, hpos, hinc⟩

/-! ### Endpoint reduction lemmas -/

theorem create_order_oracle_error (db : DB) (settle : Nat → SettleResult)
    (req : OrderCreate) (serial oid tid now : Nat) (msg : String) :
    create_order db (.error msg) settle req serial oid tid now
      = ⟨.error (.server msg), db, []⟩ := rfl

theorem create_order_not_active (db : DB) (settle : Nat → SettleResult)
    (req : OrderCreate) (serial oid tid now : Nat) (mstate : String)
    (hm : mstate ≠ "Active") :
    create_order db (.ok mstate) settle req serial oid tid now
      = ⟨.error (.client 400 "Market not in active phase"), db, []⟩ := by
  simp only [create_order, if_pos hm]

theorem create_order_run_err (db : DB) (settle : Nat → SettleResult) (req : OrderCreate)
    (serial oid tid now : Nat) (mstate : String) (hm : ¬ mstate ≠ "Active")
    (s : LoopState) (e : ApiError)
    (hrun : runMatching settle (newOrderOf req serial oid now mstate) now
        (match_order (db1Of db req serial oid tid now mstate)
          (newOrderOf req serial oid now mstate))
        ⟨(db1Of db req serial oid tid now mstate).orders,
         (db1Of db req serial oid tid now mstate).transactions,
         (newOrderOf req serial oid now mstate).amount, []⟩ = (s, some e)) :
    create_order db (.ok mstate) settle req serial oid tid now
      = ⟨.error e, db, s.calls⟩ := by
  simp only [create_order, if_neg hm, hrun]

theorem create_order_run_filled (db : DB) (settle : Nat → SettleResult) (req : OrderCreate)
    (serial oid tid now : Nat) (mstate : String) (hm : ¬ mstate ≠ "Active")
    (s : LoopState)
    (hrun : runMatching settle (newOrderOf req serial oid now mstate) now
        (match_order (db1Of db req serial oid tid now mstate)
          (newOrderOf req serial oid now mstate))
        ⟨(db1Of db req serial oid tid now mstate).orders,
         (db1Of db req serial oid tid now mstate).transactions,
         (newOrderOf req serial oid now mstate).amount, []⟩ = (s, none))
    (hrem : ¬ 0 < s.remaining) :
    create_order db (.ok mstate) settle req serial oid tid now
      = ⟨.ok (respOf (newOrderOf req serial oid now mstate) 0),
         ⟨removeOrder oid s.orders, s.transactions⟩, s.calls⟩ := by
  simp only [create_order, if_neg hm, hrun, if_neg hrem]

theorem create_order_run_resting (db : DB) (settle : Nat → SettleResult) (req : OrderCreate)
    (serial oid tid now : Nat) (mstate : String) (hm : ¬ mstate ≠ "Active")
    (s : LoopState)
    (hrun : runMatching settle (newOrderOf req serial oid now mstate) now
        (match_order (db1Of db req serial oid tid now mstate)
          (newOrderOf req serial oid now mstate))
        ⟨(db1Of db req serial oid tid now mstate).orders,
         (db1Of db req serial oid tid now mstate).transactions,
         (newOrderOf req serial oid now mstate).amount, []⟩ = (s, none))
    (hrem : 0 < s.remaining) :
    create_order db (.ok mstate) settle req serial oid tid now
      = ⟨.ok (respOf (newOrderOf req serial oid now mstate) s.remaining),
         ⟨setAmount oid s.remaining s.orders, s.transactions⟩, s.calls⟩ := by
  simp only [create_order, if_neg hm, hrun, if_pos hrem]

theorem create_order_calls_spec (db : DB) (settle : Nat → SettleResult)
    (req : OrderCreate) (serial oid tid now : Nat) (mstate : String) :
    ∀ call ∈ (create_order db (.ok mstate) settle req serial oid tid now).calls,
      ∃ c ∈ match_order (db1Of db req serial oid tid now mstate)
          (newOrderOf req serial oid now mstate),
        ∃ m : ℤ, 0 < m ∧ m ≤ c.amount ∧
          call = mkSettleCall (newOrderOf req serial oid now mstate) c m := by
  intro call hc
  by_cases hm : mstate ≠ "Active"
  · rw [create_order_not_active db settle req serial oid tid now mstate hm] at hc
    simp at hc
  · rcases hrun : runMatching settle (newOrderOf req serial oid now mstate) now
        (match_order (db1Of db req serial oid tid now mstate)
          (newOrderOf req serial oid now mstate))
        ⟨(db1Of db req serial oid tid now mstate).orders,
         (db1Of db req serial oid tid now mstate).transactions,
         (newOrderOf req serial oid now mstate).amount, []⟩ with ⟨s, err⟩
    have hcmem : call ∈ s.calls := by
      rcases err with _ | e
      · by_cases hrem : 0 < s.remaining
        · rw [create_order_run_resting db settle req serial oid tid now mstate hm s hrun
            hrem] at hc
          exact hc
        · rw [create_order_run_filled db settle req serial oid tid now mstate hm s hrun
            hrem] at hc
          exact hc
      · rw [create_order_run_err db settle req serial oid tid now mstate hm s e hrun] at hc
        exact hc
    by_cases hamt : (newOrderOf req serial oid now mstate).amount ≤ 0
    · rw [match_order_of_nonpos _ _ hamt, runMatching] at hrun
      cases hrun
      simp at hcmem
    · have h := runMatching_calls settle (newOrderOf req serial oid now mstate) now
        (match_order (db1Of db req serial oid tid now mstate)
          (newOrderOf req serial oid now mstate))
        ⟨(db1Of db req serial oid tid now mstate).orders,
         (db1Of db req serial oid tid now mstate).transactions,
         (newOrderOf req serial oid now mstate).amount, []⟩
        (le_of_lt (not_le.1 hamt))
        (fun c hcm => (match_order_mem _ _ c hcm).2.1)
        call (by rw [hrun]; exact hcmem)
      rcases h with h0 | ⟨c, hcm, m, hm0, hmle, rfl⟩
      · simp at h0
      · exact ⟨c, hcm, m, hm0, hmle, rfl⟩

theorem create_order_txs_ok (db : DB) (settle : Nat → SettleResult) (req : OrderCreate)
    (serial oid tid now : Nat) (mstate : String) :
    ∀ t' ∈ (create_order db (.ok mstate) settle req serial oid tid now).db.transactions,
      ∃ t, (t ∈ db.transactions ∨ t = newTxOf req serial tid now) ∧ t'.id = t.id ∧
        t'.deal_amount + t'.remaining_amount = t.deal_amount + t.remaining_amount ∧
        (t' = t ∨ ∃ c ∈ match_order (db1Of db req serial oid tid now mstate)
            (newOrderOf req serial oid now mstate), t'.price = c.price) := by
  intro t' ht'
  by_cases hm : mstate ≠ "Active"
  · rw [create_order_not_active db settle req serial oid tid now mstate hm] at ht'
    exact ⟨t', Or.inl ht', rfl, rfl, Or.inl rfl⟩
  · rcases hrun : runMatching settle (newOrderOf req serial oid now mstate) now
        (match_order (db1Of db req serial oid tid now mstate)
          (newOrderOf req serial oid now mstate))
        ⟨(db1Of db req serial oid tid now mstate).orders,
         (db1Of db req serial oid tid now mstate).transactions,
         (newOrderOf req serial oid now mstate).amount, []⟩ with ⟨s, err⟩
    have hforall := runMatching_txs settle (newOrderOf req serial oid now mstate) now
      (match_order (db1Of db req serial oid tid now mstate)
        (newOrderOf req serial oid now mstate))
      ⟨(db1Of db req serial oid tid now mstate).orders,
       (db1Of db req serial oid tid now mstate).transactions,
       (newOrderOf req serial oid now mstate).amount, []⟩
    rw [hrun] at hforall
    have hmem : t' ∈ s.transactions → ∃ t, (t ∈ db.transactions ∨ t = newTxOf req serial tid now) ∧
        t'.id = t.id ∧
        t'.deal_amount + t'.remaining_amount = t.deal_amount + t.remaining_amount ∧
        (t' = t ∨ ∃ c ∈ match_order (db1Of db req serial oid tid now mstate)
            (newOrderOf req serial oid now mstate), t'.price = c.price) := by
      intro hts
      rcases forall₂_mem_right hforall t' hts with ⟨t, htm, hid, hser, hsum, hpr⟩
      have htm' : t ∈ db.transactions ∨ t = newTxOf req serial tid now := by
        simpa [db1Of] using htm
      exact ⟨t, htm', hid, hsum, hpr⟩
    rcases err with _ | e
    · by_cases hrem : 0 < s.remaining
      · rw [create_order_run_resting db settle req serial oid tid now mstate hm s hrun
          hrem] at ht'
        exact hmem ht'
      · rw [create_order_run_filled db settle req serial oid tid now mstate hm s hrun
          hrem] at ht'
        exact hmem ht'
    · rw [create_order_run_err db settle req serial oid tid now mstate hm s e hrun] at ht'
      exact ⟨t', Or.inl ht', rfl, rfl, Or.inl rfl⟩

/-! ### Claim theorems -/

/-- C1 (counterexample): the claim that a failed settlement rolls back only
the failing pair while earlier successfully-settled pairs of the same
submission are retained is false.  A BUY for 8 crossing two sells settles
the first pair (5 shares at 0.5, the settlement oracle reports it mined)
and then fails on the second; the handler returns the client error, but the
committed store equals the original store: the first pair's
transaction still shows `deal_amount = 0` and the first sell still rests
with amount 5 — the earlier successful pair's mutations were rolled back
together with the failing pair's. -/
theorem C1_counterexample :
    create_order twoSellDb (Except.ok "Active") settleOkThenRevert buyReq8 200 10 10 7
      = ⟨.error (.client 400 "Transfer shares failed: Transaction reverted"), twoSellDb,
         [mkSettleCall (newOrderOf buyReq8 200 10 7 "Active") sellA 5,
          mkSettleCall (newOrderOf buyReq8 200 10 7 "Active") sellB 3]⟩ ∧
    settleOkThenRevert 0 = SettleResult.ok ∧
    settleOkThenRevert 1 = SettleResult.reverted ∧
    findTx twoSellDb.transactions 101 = some txA ∧
    txA.deal_amount = 0 ∧ txA.status = OrderStatus.OPEN ∧ sellA ∈ twoSellDb.orders ∧
    sellA.amount = 5 := by
  decide

/-- C3 (counterexample): `match_order` is *not* always "exactly the resting
orders of the opposite side … that satisfy the price bound": for an
incoming BUY with amount 0 (the endpoint validates neither amount nor
anything else) it returns the empty list although an eligible resting SELL
within the price bound exists. -/
theorem C3_counterexample :
    match_order oneSellDb (newOrderOf buyReq0 200 10 7 "Active") = [] ∧
    (newOrderOf buyReq0 200 10 7 "Active").side = "buy" ∧
    sellA ∈ oneSellDb.orders ∧ sellA.side = "sell" ∧ 0 < sellA.amount ∧
    sellA.market_state = "Active" ∧
    sellA.market_address = (newOrderOf buyReq0 200 10 7 "Active").market_address ∧
    sellA.outcome = (newOrderOf buyReq0 200 10 7 "Active").outcome ∧
    sellA.price ≤ (newOrderOf buyReq0 200 10 7 "Active").price := by
  decide

/-- C7 (code bug): cancelling an order id that is not in the store does not
produce the specified 404 NotFound: `main.py:250` dereferences
`db_order.order_serial` before the `if not db_order` guard at
`main.py:251`, so the handler dies with an uncaught `AttributeError`
(surfaced as a server error), and the store is untouched. -/
theorem C7_missing_order_crash :
    cancel_order ⟨[], []⟩ (Except.ok "Active") 1
      = (.error (.server "AttributeError: NoneType has no attribute order_serial"),
         (⟨[], []⟩ : DB)) ∧
    ∀ d : String,
      (cancel_order ⟨[], []⟩ (Except.ok "Active") 1).1 ≠ .error (.client 404 d) := by
  refine ⟨by decide, ?_⟩
  intro d h
  have h0 : (cancel_order ⟨[], []⟩ (Except.ok "Active") 1).1
      = .error (.server "AttributeError: NoneType has no attribute order_serial") := by
    decide
  rw [h0] at h
  have := Except.error.inj h
  simp at this

/-- C8 (counterexample): when the market-state oracle call fails, the
submission is *not* rejected with a client error: the exception propagates
uncaught (a server error).  No store mutation and no settlement call happen,
so only the "client-error" half of the claim fails. -/
theorem C8_counterexample :
    create_order oneSellDb (.error "connection failed") settleAllOk buyReq3 200 10 10 7
      = ⟨.error (.server "connection failed"), oneSellDb, []⟩ ∧
    ¬ (ApiError.server "connection failed").isClient := by
  exact ⟨by decide, fun h => h⟩

/-- C8 (amended): a non-`"Active"` market state is rejected with a client
error (400) before any store mutation or settlement call; a failing oracle
call also aborts before any store mutation or settlement call, but the
error propagates as an uncaught exception (server error), not as a client
error. -/
theorem C8_precondition_gate (db : DB) (oracle : Except String String)
    (settle : Nat → SettleResult) (req : OrderCreate) (serial oid tid now : Nat) :
    (∀ msg, oracle = .error msg →
      create_order db oracle settle req serial oid tid now
        = ⟨.error (.server msg), db, []⟩) ∧
    (∀ mstate, oracle = .ok mstate → mstate ≠ "Active" →
      create_order db oracle settle req serial oid tid now
        = ⟨.error (.client 400 "Market not in active phase"), db, []⟩) := by
  constructor
  · rintro msg rfl; rfl
  · rintro mstate rfl hne
    simp only [create_order, if_pos hne]

/-- Witness for C8 (amended): a `"Resolved"` market rejects the submission
with the 400 precondition failure and mutates nothing. -/
theorem C8_witness :
    create_order oneSellDb (.ok "Resolved") settleAllOk buyReq3 200 10 10 7
      = ⟨.error (.client 400 "Market not in active phase"), oneSellDb, []⟩ :=
  (C8_precondition_gate oneSellDb (.ok "Resolved") settleAllOk buyReq3 200 10 10 7).2
    "Resolved" rfl (by decide)

/-- C9 (counterexample): the fixed-point price argument is *not* always the
integer equal to the maker price times `10^18`.  A maker price entered as
the decimal 0.55 is stored as the binary64 value fl(0.55); the settlement
call built for it carries `int(fl(fl(0.55) · 10^18)) = 550000000000000064`,
which differs both from `0.55 · 10^18 = 550000000000000000` and from the
truncated exact product `⌊fl(0.55) · 10^18⌋ = 550000000000000044`. -/
theorem C9_counterexample :
    (create_order fpDb (.ok "Active") settleAllOk buyReqFp 201 11 11 7).calls
      = [mkSettleCall (newOrderOf buyReqFp 201 11 7 "Active") sellFp 4] ∧
    sellFp.price = pyFloatOfDecimal 55 2 ∧
    (mkSettleCall (newOrderOf buyReqFp 201 11 7 "Active") sellFp 4).price_fixed
      = 550000000000000064 ∧
    (550000000000000064 : ℤ) ≠ 550000000000000000 ∧
    pyTrunc (pyFloatOfDecimal 55 2 * tenPow18) = 550000000000000044 := by
  decide

/-- C1 (amended): when any step of the matching loop fails — a settlement
revert, a settlement exception, or a missing matched transaction — the
*whole* submission's local mutations are rolled back, earlier
successfully-settled pairs of the same submission included: the single
`begin_nested` savepoint wraps the entire loop and nothing commits before
it exits, so on any error the committed store equals the original store.
Every handler-raised error is a client error; only a failing oracle call
escapes as a server error. -/
theorem C1_rollback_all_on_error (db : DB) (oracle : Except String String)
    (settle : Nat → SettleResult) (req : OrderCreate) (serial oid tid now : Nat)
    (e : ApiError)
    (he : (create_order db oracle settle req serial oid tid now).resp = .error e) :
    (create_order db oracle settle req serial oid tid now).db = db ∧
    (e.isClient ∨ ∃ msg, oracle = .error msg ∧ e = .server msg) := by
  rcases oracle with msg | mstate
  · rw [create_order_oracle_error] at he ⊢
    exact ⟨rfl, Or.inr ⟨msg, rfl, (Except.error.inj he).symm⟩⟩
  · by_cases hm : mstate ≠ "Active"
    · rw [create_order_not_active db settle req serial oid tid now mstate hm] at he ⊢
      have := Except.error.inj he
      exact ⟨rfl, Or.inl (this ▸ trivial)⟩
    · rcases hrun : runMatching settle (newOrderOf req serial oid now mstate) now
          (match_order (db1Of db req serial oid tid now mstate)
            (newOrderOf req serial oid now mstate))
          ⟨(db1Of db req serial oid tid now mstate).orders,
           (db1Of db req serial oid tid now mstate).transactions,
           (newOrderOf req serial oid now mstate).amount, []⟩ with ⟨s, err⟩
      rcases err with _ | e'
      · by_cases hrem : 0 < s.remaining
        · rw [create_order_run_resting db settle req serial oid tid now mstate hm s hrun
            hrem] at he
          simp at he
        · rw [create_order_run_filled db settle req serial oid tid now mstate hm s hrun
            hrem] at he
          simp at he
      · rw [create_order_run_err db settle req serial oid tid now mstate hm s e' hrun]
          at he ⊢
        have he' : e' = e := Except.error.inj he
        refine ⟨rfl, Or.inl ?_⟩
        rw [← he']
        exact runMatching_err_client settle (newOrderOf req serial oid now mstate) now
          _ _ e' (by rw [hrun])

/-- Witness for C1 (amended), at the two-sell scenario whose second
settlement reverts: the committed store is the original one and the error
is a client error. -/
theorem C1_witness :
    (create_order twoSellDb (.ok "Active") settleOkThenRevert buyReq8 200 10 10 7).db
        = twoSellDb ∧
    ((ApiError.client 400 "Transfer shares failed: Transaction reverted").isClient ∨
      ∃ msg, (Except.ok "Active" : Except String String) = .error msg ∧
        ApiError.client 400 "Transfer shares failed: Transaction reverted"
          = .server msg) :=
  C1_rollback_all_on_error twoSellDb (.ok "Active") settleOkThenRevert buyReq8 200 10 10 7
    (.client 400 "Transfer shares failed: Transaction reverted") (by decide)

/-- C2 (confirmed): every settlement call issued by an order submission
carries the fixed-point encoding of the price of one of the `match_order`
candidates — the matched resting (maker) order's price, never an
independent taker price — with a positive quantity bounded by that
candidate's resting amount; and every transaction row in the committed
store either is an untouched row of the pre-matching store or records a
candidate's (maker's) price. -/
theorem C2_settlement_price_is_maker_price (db : DB) (settle : Nat → SettleResult)
    (req : OrderCreate) (serial oid tid now : Nat) (mstate : String) :
    (∀ call ∈ (create_order db (.ok mstate) settle req serial oid tid now).calls,
      ∃ c ∈ match_order (db1Of db req serial oid tid now mstate)
          (newOrderOf req serial oid now mstate),
        call.price_fixed = pyIntE18 c.price ∧ 0 < call.quantity ∧
          call.quantity ≤ c.amount) ∧
    (∀ t' ∈ (create_order db (.ok mstate) settle req serial oid tid now).db.transactions,
      t' ∈ (db1Of db req serial oid tid now mstate).transactions ∨
      ∃ c ∈ match_order (db1Of db req serial oid tid now mstate)
          (newOrderOf req serial oid now mstate),
        t'.price = c.price) ∧
    (∀ (inc c : Order) (m : ℤ) (now' : Nat) (s : LoopState),
      ∀ t' ∈ (applyFillUpdates inc now' c m s).transactions,
        t' ∈ s.transactions ∨
        (t'.price = c.price ∧ ∃ t, t' = fillT m c.price now' t)) := by
  refine ⟨?_, ?_, ?_⟩
  · intro call hc
    rcases create_order_calls_spec db settle req serial oid tid now mstate call hc with
      ⟨c, hcm, m, hm0, hmle, rfl⟩
    exact ⟨c, hcm, rfl, hm0, hmle⟩
  · intro t' ht'
    rcases create_order_txs_ok db settle req serial oid tid now mstate t' ht' with
      ⟨t, htm, _, _, hpr⟩
    rcases hpr with rfl | hpr
    · left
      simp only [db1Of, List.mem_append, List.mem_singleton]
      exact htm
    · exact Or.inr hpr
  · intro inc c m now' s t' ht'
    have hstep := forall₂_compose
      (R := fun x y => y = x ∨ y = fillT m c.price now' x)
      (S := fun x y => y = x ∨ y = fillT m c.price now' x)
      (T := fun x y => y = x ∨
        (y.price = c.price ∧ ∃ t, y = fillT m c.price now' t))
      (fun a b d hab hbd => by
        rcases hbd with h2 | h2
        · rcases hab with h1 | h1
          · exact Or.inl (h2.trans h1)
          · exact Or.inr ⟨by rw [h2, h1]; exact fillT_price .., a, h2.trans h1⟩
        · exact Or.inr ⟨by rw [h2]; exact fillT_price .., b, h2⟩)
      (updateFirst_rel (fun t => t.order_serial == inc.order_serial)
        (fillT m c.price now') s.transactions)
      (updateFirst_rel (fun t => t.order_serial == c.order_serial)
        (fillT m c.price now')
        (updateFirst (fun t => t.order_serial == inc.order_serial)
          (fillT m c.price now') s.transactions))
    rcases forall₂_mem_right hstep t' ht' with ⟨t, htm, hrel⟩
    rcases hrel with h | hpr
    · exact Or.inl (h ▸ htm)
    · exact Or.inr hpr

/-- Witness for C2 at a BUY of 3 crossing the resting sell at price 0.5:
the single settlement call carries `pyIntE18 (1/2)` and quantity 3. -/
theorem C2_witness :
    ∃ c ∈ match_order (db1Of oneSellDb buyReq3 200 10 10 7 "Active")
        (newOrderOf buyReq3 200 10 7 "Active"),
      (mkSettleCall (newOrderOf buyReq3 200 10 7 "Active") sellA 3).price_fixed
          = pyIntE18 c.price ∧
        0 < (mkSettleCall (newOrderOf buyReq3 200 10 7 "Active") sellA 3).quantity ∧
        (mkSettleCall (newOrderOf buyReq3 200 10 7 "Active") sellA 3).quantity
          ≤ c.amount :=
  (C2_settlement_price_is_maker_price oneSellDb settleAllOk buyReq3 200 10 10 7
    "Active").1 _ (by decide)

/-- C9 (amended): the price argument of every settlement call is
`int(fl(p · 10^18))` for the matched maker's stored (binary64) price `p` —
the truncated binary64 product, not always the exact integer `p · 10^18`.
The two coincide when the product is exactly representable (for example the
dyadic price 0.5), but differ for prices such as 0.55. -/
theorem C9_fixed_point_conversion (db : DB) (settle : Nat → SettleResult)
    (req : OrderCreate) (serial oid tid now : Nat) (mstate : String) :
    (∀ call ∈ (create_order db (.ok mstate) settle req serial oid tid now).calls,
      ∃ c ∈ match_order (db1Of db req serial oid tid now mstate)
          (newOrderOf req serial oid now mstate),
        call.price_fixed = pyTrunc (fpMul c.price tenPow18)) ∧
    pyTrunc (fpMul ((1:ℚ)/2) tenPow18) = 500000000000000000 ∧
    pyTrunc (fpMul (pyFloatOfDecimal 55 2) tenPow18) = 550000000000000064 := by
  refine ⟨?_, by decide, by decide⟩
  intro call hc
  rcases create_order_calls_spec db settle req serial oid tid now mstate call hc with
    ⟨c, hcm, m, _, _, rfl⟩
  exact ⟨c, hcm, rfl⟩

/-- Witness for C9 (amended) at the 0.55-priced maker scenario. -/
theorem C9_witness :
    ∃ c ∈ match_order (db1Of fpDb buyReqFp 201 11 11 7 "Active")
        (newOrderOf buyReqFp 201 11 7 "Active"),
      (mkSettleCall (newOrderOf buyReqFp 201 11 7 "Active") sellFp 4).price_fixed
        = pyTrunc (fpMul c.price tenPow18) :=
  (C9_fixed_point_conversion fpDb settleAllOk buyReqFp 201 11 11 7 "Active").1
    _ (by decide)

theorem cancel_order_txs (db : DB) (oracle : Except String String) (order_id : Nat) :
    ∀ t' ∈ (cancel_order db oracle order_id).2.transactions,
      ∃ t ∈ db.transactions,
        t' = t ∨ t' = { t with status := OrderStatus.CANCELLED } := by
  intro t' ht'
  have hbase : t' ∈ db.transactions →
      ∃ t ∈ db.transactions,
        t' = t ∨ t' = { t with status := OrderStatus.CANCELLED } :=
    fun h => ⟨t', h, Or.inl rfl⟩
  rcases oracle with msg | mstate
  all_goals rcases hf : db.orders.find? (fun x => x.id == order_id) with _ | o
  · simp only [cancel_order, hf] at ht'; exact hbase ht'
  · simp only [cancel_order, hf] at ht'
    rcases ht : findTx db.transactions o.order_serial with _ | t
    · simp only [ht] at ht'; exact hbase ht'
    · simp only [ht] at ht'
      by_cases hs : t.status ≠ OrderStatus.OPEN ∧ t.status ≠ OrderStatus.PARTIALLY_DEALT
      · rw [if_pos hs] at ht'; exact hbase ht'
      · rw [if_neg hs] at ht'; exact hbase ht'
  · simp only [cancel_order, hf] at ht'; exact hbase ht'
  · simp only [cancel_order, hf] at ht'
    rcases ht : findTx db.transactions o.order_serial with _ | t
    · simp only [ht] at ht'; exact hbase ht'
    · simp only [ht] at ht'
      by_cases hs : t.status ≠ OrderStatus.OPEN ∧ t.status ≠ OrderStatus.PARTIALLY_DEALT
      · rw [if_pos hs] at ht'; exact hbase ht'
      · rw [if_neg hs] at ht'
        by_cases hmst : mstate ≠ "Active"
        · rw [if_pos hmst] at ht'; exact hbase ht'
        · rw [if_neg hmst] at ht'
          rcases forall₂_mem_right
              (updateFirst_rel (fun u => u.order_serial == o.order_serial)
                (fun u => { u with status := OrderStatus.CANCELLED }) db.transactions)
              t' ht' with ⟨t0, ht0, hrel⟩
          exact ⟨t0, ht0, hrel⟩

/-- C4 (confirmed): a Transaction is created with `deal_amount = 0` and
`remaining_amount` equal to the order amount; every order submission leaves
each committed transaction row with the same `deal_amount +
remaining_amount` it had before (the new row summing to the request
amount), because each fill adds the matched amount to one and subtracts it
from the other on both sides; and cancellation changes neither field of any
row. -/
theorem C4_amount_conservation :
    (∀ (req : OrderCreate) (serial tid now : Nat),
      (newTxOf req serial tid now).deal_amount = 0 ∧
      (newTxOf req serial tid now).remaining_amount = req.amount) ∧
    (∀ (db : DB) (oracle : Except String String) (settle : Nat → SettleResult)
        (req : OrderCreate) (serial oid tid now : Nat),
      ∀ t' ∈ (create_order db oracle settle req serial oid tid now).db.transactions,
        (∃ t ∈ db.transactions, t'.id = t.id ∧
          t'.deal_amount + t'.remaining_amount = t.deal_amount + t.remaining_amount) ∨
        (t'.id = tid ∧ t'.deal_amount + t'.remaining_amount = req.amount)) ∧
    (∀ (db : DB) (oracle : Except String String) (order_id : Nat),
      ∀ t' ∈ (cancel_order db oracle order_id).2.transactions,
        ∃ t ∈ db.transactions, t'.id = t.id ∧
          t'.deal_amount = t.deal_amount ∧
          t'.remaining_amount = t.remaining_amount) := by
  refine ⟨fun req serial tid now => ⟨rfl, rfl⟩, ?_, ?_⟩
  · intro db oracle settle req serial oid tid now t' ht'
    rcases oracle with msg | mstate
    · rw [create_order_oracle_error] at ht'
      exact Or.inl ⟨t', ht', rfl, rfl⟩
    · rcases create_order_txs_ok db settle req serial oid tid now mstate t' ht' with
        ⟨t, htm, hid, hsum, _⟩
      rcases htm with htm | rfl
      · exact Or.inl ⟨t, htm, hid, hsum⟩
      · exact Or.inr ⟨hid, by simpa [newTxOf] using hsum⟩
  · intro db oracle order_id t' ht'
    rcases cancel_order_txs db oracle order_id t' ht' with ⟨t, htm, hrel⟩
    rcases hrel with h | h
    · exact ⟨t, htm, by rw [h], by rw [h], by rw [h]⟩
    · exact ⟨t, htm, by rw [h], by rw [h], by rw [h]⟩

/-- Witness for C4: in the committed store of a filled BUY of 3 against the
resting sell of 5, the incoming transaction row (id 10) sums to the
request amount 3. -/
theorem C4_witness :
    (∃ t ∈ oneSellDb.transactions,
      ({ id := 10, order_serial := 200, user_address := "bob", market_address := "mkt",
         outcome := "yes", side := "buy", deal_amount := 3, remaining_amount := 0,
         price := 1/2, status := OrderStatus.DEALT, created_at := 7,
         dealt_at := some 7 } : Transaction).id = t.id ∧
      (3 : ℤ) + 0 = t.deal_amount + t.remaining_amount) ∨
    (({ id := 10, order_serial := 200, user_address := "bob", market_address := "mkt",
        outcome := "yes", side := "buy", deal_amount := 3, remaining_amount := 0,
        price := 1/2, status := OrderStatus.DEALT, created_at := 7,
        dealt_at := some 7 } : Transaction).id = 10 ∧ (3 : ℤ) + 0 = buyReq3.amount) :=
  C4_amount_conservation.2.1 oneSellDb (.ok "Active") settleAllOk buyReq3 200 10 10 7
    _ (by decide)

/-- C5 (confirmed): the fill update applied to a transaction row (for both
the incoming and the matched side) produces exactly the status the spec's
deterministic mapping assigns to the new `remaining_amount` — the new
remaining amount is strictly below the original amount, so `OPEN` is
impossible, `DEALT` appears exactly when it reaches zero — and `dealt_at`
is stamped with the fill time exactly on the transition to `DEALT`,
otherwise left untouched.  Moreover every fill performed by the matching
loop uses a positive matched amount. -/
theorem C5_fill_status_deterministic :
    (∀ (t : Transaction) (m : ℤ) (p : ℚ) (now : Nat),
      0 < m → m ≤ t.remaining_amount → 0 ≤ t.deal_amount → t.dealt_at = none →
      ((fillT m p now t).status
          = specStatus (t.deal_amount + t.remaining_amount)
              (fillT m p now t).remaining_amount ∧
        0 ≤ (fillT m p now t).remaining_amount ∧
        (fillT m p now t).remaining_amount < t.deal_amount + t.remaining_amount ∧
        ((fillT m p now t).status = OrderStatus.DEALT ↔
          (fillT m p now t).remaining_amount = 0) ∧
        ((fillT m p now t).dealt_at
          = if (fillT m p now t).status = OrderStatus.DEALT then some now else none))) ∧
    (∀ (db : DB) (settle : Nat → SettleResult) (req : OrderCreate)
        (serial oid tid now : Nat) (mstate : String),
      ∀ call ∈ (create_order db (.ok mstate) settle req serial oid tid now).calls,
        0 < call.quantity) := by
  constructor
  · intro t m p now hm hmle hdeal hda
    have hrem : (fillT m p now t).remaining_amount = t.remaining_amount - m := by
      simp [fillT]
    by_cases hpos : 0 < t.remaining_amount - m
    · have hst : (fillT m p now t).status = OrderStatus.PARTIALLY_DEALT := by
        simp [fillT, hpos]
      have hdl : (fillT m p now t).dealt_at = t.dealt_at := by
        simp [fillT, hpos]
      refine ⟨?_, by omega, by omega, ?_, ?_⟩
      · rw [hst, hrem, specStatus, if_neg (by omega), if_neg (by omega)]
      · rw [hst, hrem]
        constructor
        · intro h; exact absurd h (by decide)
        · intro h; exact absurd h (by omega)
      · rw [hdl, hda, hst, if_neg (by decide)]
    · have hz : t.remaining_amount - m = 0 := by omega
      have hst : (fillT m p now t).status = OrderStatus.DEALT := by
        simp [fillT, hpos]
      have hdl : (fillT m p now t).dealt_at = some now := by
        simp [fillT, hpos]
      refine ⟨?_, by omega, by omega, by simp [hst, hrem, hz], ?_⟩
      · rw [hst, hrem, hz, specStatus, if_neg (by omega), if_pos rfl]
      · rw [hdl, hst, if_pos rfl]
  · intro db settle req serial oid tid now mstate call hc
    rcases create_order_calls_spec db settle req serial oid tid now mstate call hc with
      ⟨c, _, m, hm0, _, rfl⟩
    exact hm0

/-- Witness for C5: filling the resting transaction of 5 with 3 shares at
price 0.5 yields `PARTIALLY_DEALT` (the spec mapping's value at remaining
2 of original 5) and leaves `dealt_at` unset. -/
theorem C5_witness :
    (fillT 3 (1/2) 7 txA).status
        = specStatus (txA.deal_amount + txA.remaining_amount)
            (fillT 3 (1/2) 7 txA).remaining_amount ∧
    0 ≤ (fillT 3 (1/2) 7 txA).remaining_amount ∧
    (fillT 3 (1/2) 7 txA).remaining_amount < txA.deal_amount + txA.remaining_amount ∧
    ((fillT 3 (1/2) 7 txA).status = OrderStatus.DEALT ↔
      (fillT 3 (1/2) 7 txA).remaining_amount = 0) ∧
    ((fillT 3 (1/2) 7 txA).dealt_at
      = if (fillT 3 (1/2) 7 txA).status = OrderStatus.DEALT then some 7 else none) :=
  C5_fill_status_deterministic.1 txA 3 (1/2) 7 (by decide) (by decide) (by decide)
    (by decide)

/-- C6 (confirmed): starting from a store whose orders all have positive
amounts (and a fresh row identity for the incoming order), the store
committed by an order submission again contains only orders with positive
amounts: any order fully consumed during matching is deleted before the
commit, and the incoming order is persisted as a resting order only when
its unfilled amount is still positive. -/
theorem C6_store_orders_positive (db : DB) (oracle : Except String String)
    (settle : Nat → SettleResult) (req : OrderCreate) (serial oid tid now : Nat)
    (hpos : ∀ o ∈ db.orders, 0 < o.amount)
    (hfresh : ∀ o ∈ db.orders, o.id ≠ oid) :
    ∀ o ∈ (create_order db oracle settle req serial oid tid now).db.orders,
      0 < o.amount := by
  rcases oracle with msg | mstate
  · rw [create_order_oracle_error]; exact hpos
  · by_cases hm : mstate ≠ "Active"
    · rw [create_order_not_active db settle req serial oid tid now mstate hm]; exact hpos
    · rcases hrun : runMatching settle (newOrderOf req serial oid now mstate) now
          (match_order (db1Of db req serial oid tid now mstate)
            (newOrderOf req serial oid now mstate))
          ⟨(db1Of db req serial oid tid now mstate).orders,
           (db1Of db req serial oid tid now mstate).transactions,
           (newOrderOf req serial oid now mstate).amount, []⟩ with ⟨s, err⟩
      rcases err with _ | e
      · by_cases hamt : (newOrderOf req serial oid now mstate).amount ≤ 0
        · rw [match_order_of_nonpos _ _ hamt, runMatching] at hrun
          cases hrun
          have hrem : ¬ 0 < (⟨(db1Of db req serial oid tid now mstate).orders,
              (db1Of db req serial oid tid now mstate).transactions,
              (newOrderOf req serial oid now mstate).amount, []⟩ : LoopState).remaining :=
            not_lt.2 hamt
          rw [create_order_run_filled db settle req serial oid tid now mstate hm _
            (by rw [match_order_of_nonpos _ _ hamt, runMatching]) hrem]
          intro o ho
          rcases mem_removeOrder.1 ho with ⟨ho1, hne⟩
          rcases (by simpa [db1Of] using ho1 :
              o ∈ db.orders ∨ o = newOrderOf req serial oid now mstate) with h | h
          · exact hpos o h
          · rw [h] at hne
            simp [newOrderOf] at hne
        · have hni : ∀ c ∈ match_order (db1Of db req serial oid tid now mstate)
              (newOrderOf req serial oid now mstate),
              c.id ≠ (newOrderOf req serial oid now mstate).id := by
            intro c hcmem
            rcases match_order_mem _ _ c hcmem with
              ⟨hcdb, _, _, _, _, hside, _, _⟩
            rcases (by simpa [db1Of] using hcdb :
                c ∈ db.orders ∨ c = newOrderOf req serial oid now mstate) with h | h
            · exact hfresh c h
            · exfalso
              rw [h] at hside
              by_cases hb : (newOrderOf req serial oid now mstate).side = "buy"
              · rw [if_pos hb, hb] at hside; exact absurd hside (by decide)
              · rw [if_neg hb] at hside; exact hb hside
          have hpos0 : ∀ o ∈ (⟨(db1Of db req serial oid tid now mstate).orders,
              (db1Of db req serial oid tid now mstate).transactions,
              (newOrderOf req serial oid now mstate).amount, []⟩ : LoopState).orders,
              o.id ≠ (newOrderOf req serial oid now mstate).id → 0 < o.amount := by
            intro o ho hne
            rcases (by simpa [db1Of] using ho :
                o ∈ db.orders ∨ o = newOrderOf req serial oid now mstate) with h | h
            · exact hpos o h
            · rw [h] at hne
              exact absurd rfl hne
          have hinc0 : ∀ o ∈ (⟨(db1Of db req serial oid tid now mstate).orders,
              (db1Of db req serial oid tid now mstate).transactions,
              (newOrderOf req serial oid now mstate).amount, []⟩ : LoopState).orders,
              o.id = (newOrderOf req serial oid now mstate).id →
              o.amount = (⟨(db1Of db req serial oid tid now mstate).orders,
                (db1Of db req serial oid tid now mstate).transactions,
                (newOrderOf req serial oid now mstate).amount, []⟩ : LoopState).remaining := by
            intro o ho hid
            rcases (by simpa [db1Of] using ho :
                o ∈ db.orders ∨ o = newOrderOf req serial oid now mstate) with h | h
            · exact absurd (by simpa [newOrderOf] using hid) (hfresh o h)
            · rw [h]
          have hinv := runMatching_orders settle (newOrderOf req serial oid now mstate)
            now (match_order (db1Of db req serial oid tid now mstate)
              (newOrderOf req serial oid now mstate))
            ⟨(db1Of db req serial oid tid now mstate).orders,
             (db1Of db req serial oid tid now mstate).transactions,
             (newOrderOf req serial oid now mstate).amount, []⟩
            hni (le_of_lt (not_le.1 hamt)) hpos0 hinc0
          rw [hrun] at hinv
          obtain ⟨-, hpos', -⟩ := hinv
          by_cases hrem : 0 < s.remaining
          · rw [create_order_run_resting db settle req serial oid tid now mstate hm s
              hrun hrem]
            intro o ho
            rcases mem_setAmount.1 ho with ⟨o1, ho1, rfl⟩
            by_cases h1 : o1.id = oid
            · rw [if_pos h1]; simpa using hrem
            · rw [if_neg h1]
              exact hpos' o1 ho1 (by simpa [newOrderOf] using h1)
          · rw [create_order_run_filled db settle req serial oid tid now mstate hm s
              hrun hrem]
            intro o ho
            rcases mem_removeOrder.1 ho with ⟨ho1, hne⟩
            exact hpos' o ho1 (by simpa [newOrderOf] using hne)
      · rw [create_order_run_err db settle req serial oid tid now mstate hm s e hrun]
        exact hpos

/-- Witness for C6: after the BUY of 3 fills against the resting sell of 5,
the only stored order is the sell reduced to amount 2, which is positive. -/
theorem C6_witness :
    0 < ({ sellA with amount := 2 } : Order).amount :=
  C6_store_orders_positive oneSellDb (.ok "Active") settleAllOk buyReq3 200 10 10 7
    (by decide) (by decide) _ (by decide)

/-- C3 (amended): for an incoming order with *positive* amount,
`match_order` returns exactly (as a multiset) the resting orders of the
opposite side with the same market and outcome, positive amount and
`Active` market snapshot that satisfy the price bound — ascending by price
for a BUY, descending for a SELL; for a non-positive incoming amount it
returns the empty list (the guard at `main.py:325`).  Consequently no
settlement call is ever issued against a candidate outside the price
bound. -/
theorem C3_match_order_exact :
    (∀ (db : DB) (o : Order), 0 < o.amount → o.side = "buy" →
      (match_order db o).Perm
          (db.orders.filter (fun x => decide (x.market_address = o.market_address ∧
            x.outcome = o.outcome ∧ x.side = "sell" ∧ 0 < x.amount ∧
            x.market_state = "Active" ∧ x.price ≤ o.price))) ∧
        List.Sorted priceLE (match_order db o)) ∧
    (∀ (db : DB) (o : Order), 0 < o.amount → o.side = "sell" →
      (match_order db o).Perm
          (db.orders.filter (fun x => decide (x.market_address = o.market_address ∧
            x.outcome = o.outcome ∧ x.side = "buy" ∧ 0 < x.amount ∧
            x.market_state = "Active" ∧ o.price ≤ x.price))) ∧
        List.Sorted priceGE (match_order db o)) ∧
    (∀ (db : DB) (o : Order), o.amount ≤ 0 → match_order db o = []) ∧
    (∀ (db : DB) (settle : Nat → SettleResult) (req : OrderCreate)
        (serial oid tid now : Nat) (mstate : String),
      ∀ call ∈ (create_order db (.ok mstate) settle req serial oid tid now).calls,
        ∃ c ∈ match_order (db1Of db req serial oid tid now mstate)
            (newOrderOf req serial oid now mstate),
          call.price_fixed = pyIntE18 c.price ∧
          (req.side = "buy" → c.price ≤ req.price) ∧
          (req.side = "sell" → req.price ≤ c.price)) := by
  refine ⟨?_, ?_, fun db o h => match_order_of_nonpos db o h, ?_⟩
  · intro db o h hs
    have hneg : ¬ o.amount ≤ 0 := not_le.2 h
    have hbeq : (o.side == "buy") = true := by simp [hs]
    have ho : match_order db o
        = List.insertionSort priceLE
            ((db.orders.filter (eligible o "sell")).filter
              (fun x => decide (x.price ≤ o.price))) := by
      simp only [match_order, if_neg hneg, hbeq, if_true]
    constructor
    · rw [ho]
      refine (List.perm_insertionSort priceLE _).trans ?_
      rw [List.filter_filter]
      exact List.Perm.of_eq (List.filter_congr (fun x _ => by
        rw [Bool.eq_iff_iff]
        simp only [Bool.and_eq_true, decide_eq_true_eq, eligible, beq_iff_eq]
        tauto))
    · rw [ho]
      exact List.sorted_insertionSort priceLE _
  · intro db o h hs
    have hneg : ¬ o.amount ≤ 0 := not_le.2 h
    have hbeq : (o.side == "buy") = false := by simp [hs]
    have ho : match_order db o
        = List.insertionSort priceGE
            ((db.orders.filter (eligible o "buy")).filter
              (fun x => decide (o.price ≤ x.price))) := by
      simp only [match_order, if_neg hneg, hbeq, if_false, Bool.false_eq_true]
    constructor
    · rw [ho]
      refine (List.perm_insertionSort priceGE _).trans ?_
      rw [List.filter_filter]
      exact List.Perm.of_eq (List.filter_congr (fun x _ => by
        rw [Bool.eq_iff_iff]
        simp only [Bool.and_eq_true, decide_eq_true_eq, eligible, beq_iff_eq]
        tauto))
    · rw [ho]
      exact List.sorted_insertionSort priceGE _
  · intro db settle req serial oid tid now mstate call hc
    rcases create_order_calls_spec db settle req serial oid tid now mstate call hc with
      ⟨c, hcm, m, _, _, rfl⟩
    rcases match_order_mem _ _ c hcm with ⟨_, _, _, _, _, _, hbuy, hsell⟩
    refine ⟨c, hcm, rfl, fun hb => hbuy hb, fun hse => hsell ?_⟩
    show req.side ≠ "buy"
    rw [hse]
    decide

/-- Witness for C3 (amended), on the one-sell store and the BUY of 3:
the matching result is exactly the sorted singleton of the eligible sell. -/
theorem C3_witness :
    (match_order oneSellDb (newOrderOf buyReq3 200 10 7 "Active")).Perm
        (oneSellDb.orders.filter (fun x =>
          decide (x.market_address = (newOrderOf buyReq3 200 10 7 "Active").market_address ∧
            x.outcome = (newOrderOf buyReq3 200 10 7 "Active").outcome ∧
            x.side = "sell" ∧ 0 < x.amount ∧ x.market_state = "Active" ∧
            x.price ≤ (newOrderOf buyReq3 200 10 7 "Active").price))) ∧
      List.Sorted priceLE (match_order oneSellDb (newOrderOf buyReq3 200 10 7 "Active")) :=
  C3_match_order_exact.1 oneSellDb (newOrderOf buyReq3 200 10 7 "Active")
    (by decide) (by decide)

/-- C10 (confirmed): a successful cancellation mutates exactly one
transaction row — the first row carrying the order's serial — and only its
`status` field (set to `CANCELLED`; every other field is preserved by the
record update), deletes exactly the cancelled order row, and touches no
other order or transaction. -/
theorem C10_cancel_frame (db : DB) (oid : Nat) (o : Order) (t : Transaction)
    (hfind : db.orders.find? (fun x => x.id == oid) = some o)
    (htx : findTx db.transactions o.order_serial = some t)
    (hst : t.status = OrderStatus.OPEN ∨ t.status = OrderStatus.PARTIALLY_DEALT) :
    (cancel_order db (.ok "Active") oid).1 = .ok (respOf o o.amount) ∧
    (∀ x ∈ (cancel_order db (.ok "Active") oid).2.orders, x ∈ db.orders ∧ x.id ≠ oid) ∧
    (∀ x ∈ db.orders, x.id ≠ oid → x ∈ (cancel_order db (.ok "Active") oid).2.orders) ∧
    ∃ l₁ l₂, db.transactions = l₁ ++ t :: l₂ ∧
      (cancel_order db (.ok "Active") oid).2.transactions
        = l₁ ++ { t with status := OrderStatus.CANCELLED } :: l₂ ∧
      ∀ u ∈ l₁, u.order_serial ≠ o.order_serial := by
  have hcond : ¬(t.status ≠ OrderStatus.OPEN ∧ t.status ≠ OrderStatus.PARTIALLY_DEALT) := by
    rcases hst with h | h <;> simp [h]
  have hred : cancel_order db (.ok "Active") oid
      = (.ok (respOf o o.amount),
         ⟨removeOrder oid db.orders,
          updateFirst (fun u => u.order_serial == o.order_serial)
            (fun u => { u with status := OrderStatus.CANCELLED }) db.transactions⟩) := by
    simp only [cancel_order, hfind, htx, if_neg hcond]
    rw [if_neg (by simp : ¬("Active" ≠ "Active"))]
  rw [hred]
  refine ⟨rfl, ?_, ?_, ?_⟩
  · intro x hx; exact mem_removeOrder.1 hx
  · intro x hx hne; exact mem_removeOrder.2 ⟨hx, hne⟩
  · have htx' : List.find? (fun u : Transaction => u.order_serial == o.order_serial)
        db.transactions = some t := htx
    rcases updateFirst_split (fun u : Transaction => u.order_serial == o.order_serial)
        (fun u => { u with status := OrderStatus.CANCELLED }) db.transactions t htx'
      with ⟨l₁, l₂, hsplit, hl₁, hupd⟩
    exact ⟨l₁, l₂, hsplit, hupd, fun u hu => by simpa using hl₁ u hu⟩

/-- Witness for C10 at the one-sell store: cancelling order 1 returns the
order's data, leaves no order behind, and rewrites exactly `txA` to
`CANCELLED` with all other fields intact. -/
theorem C10_witness :
    (cancel_order oneSellDb (.ok "Active") 1).1 = .ok (respOf sellA sellA.amount) ∧
    (∀ x ∈ (cancel_order oneSellDb (.ok "Active") 1).2.orders,
      x ∈ oneSellDb.orders ∧ x.id ≠ 1) ∧
    (∀ x ∈ oneSellDb.orders, x.id ≠ 1 →
      x ∈ (cancel_order oneSellDb (.ok "Active") 1).2.orders) ∧
    ∃ l₁ l₂, oneSellDb.transactions = l₁ ++ txA :: l₂ ∧
      (cancel_order oneSellDb (.ok "Active") 1).2.transactions
        = l₁ ++ { txA with status := OrderStatus.CANCELLED } :: l₂ ∧
      ∀ u ∈ l₁, u.order_serial ≠ sellA.order_serial :=
  C10_cancel_frame oneSellDb 1 sellA txA (by decide) (by decide) (Or.inl (by decide))

end Funtury
